import Mathlib

/-!
Shallow embedding of `pkg/cache/clusterqueue.go`, the resource-accounting core
of a multi-tenant job-admission cache.  Go maps with string keys are modelled
as association lists (`alookup` returns the first binding; `ainsert` overwrites
in place or appends; `aerase` deletes), Go `int64` as `Int`, nil-able values as
`Option`.  Functions that mutate the receiver in place and may early-return an
error are modelled as returning the post-call state together with the optional
error; an early error return leaves the state exactly as mutated up to that
point, as in the source.
-/

set_option maxHeartbeats 1000000

abbrev ResourceName := String

abbrev FlavorRef := String

/-- Association-list model of a Go map with string keys: first binding wins. -/
def alookup {β : Type} : List (String × β) → String → Option β
  | [], _ => none
  | p :: t, key => if p.1 = key then some p.2 else alookup t key

/-- Go map assignment `m[k] = v`: overwrite an existing binding or append. -/
def ainsert {β : Type} : List (String × β) → String → β → List (String × β)
  | [], key, v => [(key, v)]
  | p :: t, key, v => if p.1 = key then (key, v) :: t else p :: ainsert t key v

/-- Go `delete(m, k)`. -/
def aerase {β : Type} : List (String × β) → String → List (String × β)
  | [], _ => []
  | p :: t, key => if p.1 = key then aerase t key else p :: aerase t key

/-- Inner level of `FlavorResourceQuantities`: `map[corev1.ResourceName]int64`. -/
abbrev ResourceUsage := List (ResourceName × Int)

/-- `type FlavorResourceQuantities map[ResourceFlavorReference]map[ResourceName]int64`. -/
abbrev FlavorResourceQuantities := List (FlavorRef × ResourceUsage)

/-- Two-level lookup `u[f][r]`, `none` when either level is missing. -/
def lookupCell (u : FlavorResourceQuantities) (f : FlavorRef) (r : ResourceName) : Option Int :=
  match alookup u f with
  | none => none
  | some ru => alookup ru r

/-- The Go-map invariant that flavor keys of a ledger are pairwise distinct. -/
def ledgerKeysNodup (u : FlavorResourceQuantities) : Prop :=
  (u.map Prod.fst).Nodup

instance (u : FlavorResourceQuantities) : Decidable (ledgerKeysNodup u) := by
  unfold ledgerKeysNodup
  infer_instance

/-- `type ResourceQuota struct { Nominal int64; BorrowingLimit *int64 }`. -/
structure ResourceQuota where
  nominal : Int
  borrowingLimit : Option Int
deriving DecidableEq

/-- `type FlavorQuotas struct { Name; Resources map[ResourceName]*ResourceQuota }`. -/
structure FlavorQuotas where
  name : FlavorRef
  resources : List (ResourceName × ResourceQuota)
deriving DecidableEq

/-- `type ResourceGroup struct { CoveredResources; Flavors; LabelKeys }`.
`labelKeys = none` models the nil `sets.Set[string]`. -/
structure ResourceGroup where
  coveredResources : List ResourceName
  flavors : List FlavorQuotas
  labelKeys : Option (List String)
deriving DecidableEq

/-- `metrics.ClusterQueueStatus`: the three status constants used by the source. -/
inductive ClusterQueueStatus
  | pending
  | active
  | terminating
deriving DecidableEq

/-- Modelled from the spec: a preemption policy value; the source only
materialises the `Never` constant, other values are opaque to this core. -/
inductive PreemptionPolicy
  | never
  | lowerPriority
deriving DecidableEq

/-- `kueue.ClusterQueuePreemption`: two independent policy values. -/
structure ClusterQueuePreemption where
  reclaimWithinCohort : PreemptionPolicy
  withinClusterQueue : PreemptionPolicy
deriving DecidableEq

/-- `var defaultPreemption = ...{ReclaimWithinCohort: Never, WithinClusterQueue: Never}`. -/
def defaultPreemption : ClusterQueuePreemption :=
  { reclaimWithinCohort := PreemptionPolicy.never
    withinClusterQueue := PreemptionPolicy.never }

/-- Modelled from the spec: a registered resource flavor, of which this core
only reads the advertised node-label map (`flv.Spec.NodeLabels`). -/
structure ResourceFlavor where
  nodeLabels : List (String × String)
deriving DecidableEq

/-- The flavor registry `map[kueue.ResourceFlavorReference]*kueue.ResourceFlavor`. -/
abbrev FlavorRegistry := List (FlavorRef × ResourceFlavor)

/-- Modelled from the spec: a namespace-selector requirement operator, as in
the external apimachinery label-selector model. -/
inductive SelectorOperator
  | opIn
  | opNotIn
  | opExists
  | opDoesNotExist
deriving DecidableEq

/-- Modelled from the spec: one namespace-selector match expression. -/
structure LabelSelectorRequirement where
  key : String
  op : SelectorOperator
  values : List String
deriving DecidableEq

/-- Modelled from the spec: the declarative namespace-selector expression
passed in the quota spec (`metav1.LabelSelector`). -/
structure LabelSelector where
  matchLabels : List (String × String)
  matchExpressions : List LabelSelectorRequirement
deriving DecidableEq

/-- Modelled from the spec: a requirement is well-formed when set-valued
operators carry at least one value and existence operators carry none. -/
def requirementValid (req : LabelSelectorRequirement) : Bool :=
  match req.op with
  | SelectorOperator.opIn => !req.values.isEmpty
  | SelectorOperator.opNotIn => !req.values.isEmpty
  | SelectorOperator.opExists => req.values.isEmpty
  | SelectorOperator.opDoesNotExist => req.values.isEmpty

/-- Modelled from the spec: `metav1.LabelSelectorAsSelector`, which is external
to this repository; "malformed namespace-selector syntax is the only validation
failure".  The parsed selector is represented by the expression itself. -/
def labelSelectorAsSelector (ls : LabelSelector) : Except String LabelSelector :=
  if ls.matchExpressions.all requirementValid then Except.ok ls
  else Except.error "invalid label selector"

/-- Modelled from the spec: one pod-set of a WorkloadInfo, carrying a
resource→quantity request map and a resource→assigned-flavor map. -/
structure PodSetRequests where
  requests : List (ResourceName × Int)
  flavors : List (ResourceName × FlavorRef)
deriving DecidableEq

/-- Modelled from the spec: a workload object as seen by this core: identity
(namespace + name), owning tenant queue name, pods-ready condition, pod-sets. -/
structure Workload where
  nspace : String
  wname : String
  queueName : String
  podsReady : Bool
  podSets : List PodSetRequests
deriving DecidableEq

/-- Modelled from the spec: `workload.Info`, the processed view of a workload
consumed (never mutated) by this core. -/
structure WorkloadInfo where
  obj : Workload
  totalRequests : List PodSetRequests
deriving DecidableEq

/-- Modelled from the spec: `workload.NewInfo`, which derives the pod-set
totals of a workload; quantities are already resource-unit-normalized. -/
def newInfo (w : Workload) : WorkloadInfo :=
  { obj := w, totalRequests := w.podSets }

/-- Modelled from the spec: `workload.Key`, the stable workload identity
(namespace/name). -/
def workloadKey (w : Workload) : String :=
  w.nspace ++ "/" ++ w.wname

/-- Modelled from the spec: `workload.QueueKey`, the key (namespace/queue-name)
of the tenant queue a workload was submitted through. -/
def queueKeyForWorkload (w : Workload) : String :=
  w.nspace ++ "/" ++ w.queueName

/-- Modelled from the spec: `kueue.LocalQueue`, the tenant-queue object:
namespace plus queue name. -/
structure LocalQueue where
  nspace : String
  qname : String
deriving DecidableEq

/-- Modelled from the spec: `queueKey`, the TenantView identity key
(namespace/name pair). -/
def queueKey (q : LocalQueue) : String :=
  q.nspace ++ "/" ++ q.qname

/-- `func workloadBelongsToLocalQueue(wl, q) bool`. -/
def workloadBelongsToLocalQueue (wl : Workload) (q : LocalQueue) : Bool :=
  wl.nspace == q.nspace && wl.queueName == q.qname

/-- `type queue struct { key; admittedWorkloads; usage }` (the TenantView). -/
structure queue where
  key : String
  admittedWorkloads : Int
  usage : FlavorResourceQuantities
deriving DecidableEq

/-- `type ClusterQueue struct {...}`.  The cohort back-pointer is modelled by
the cohort's name (`none` = nil); `rgByResource` maps a resource name to the
index of its owning group in `resourceGroups`. -/
structure ClusterQueue where
  name : String
  cohort : Option String
  resourceGroups : List ResourceGroup
  rgByResource : List (ResourceName × Nat)
  usage : FlavorResourceQuantities
  workloads : List (String × WorkloadInfo)
  workloadsNotReady : List String
  namespaceSelector : LabelSelector
  preemption : ClusterQueuePreemption
  status : ClusterQueueStatus
  localQueues : List (String × queue)
  podsReadyTracking : Bool
deriving DecidableEq

/-- Modelled from the spec: `workload.ResourceValue` normalizes a spec-unit
quantity; quantities in this embedding are already normalized integers. -/
def resourceValue (_r : ResourceName) (q : Int) : Int := q

/-- `kueue.ResourceQuota` (spec input): name, nominal quota, borrowing limit. -/
structure KResourceQuota where
  name : ResourceName
  nominalQuota : Int
  borrowingLimit : Option Int
deriving DecidableEq

/-- `kueue.FlavorQuotas` (spec input). -/
structure KFlavorQuotas where
  name : FlavorRef
  resources : List KResourceQuota
deriving DecidableEq

/-- `kueue.ResourceGroup` (spec input). -/
structure KResourceGroup where
  coveredResources : List ResourceName
  flavors : List KFlavorQuotas
deriving DecidableEq

/-- The parts of `kueue.ClusterQueue.Spec` read by `update`. -/
structure ClusterQueueSpec where
  resourceGroups : List KResourceGroup
  namespaceSelector : LabelSelector
  preemption : Option ClusterQueuePreemption
deriving DecidableEq

/-- `func (c *ClusterQueue) IsBorrowing() bool`. -/
def IsBorrowing (c : ClusterQueue) : Bool :=
  if c.cohort.isNone || c.usage.isEmpty then false
  else
    c.resourceGroups.any (fun rg =>
      rg.flavors.any (fun flvQuotas =>
        match alookup c.usage flvQuotas.name with
        | some flvUsage =>
            flvQuotas.resources.any (fun rp =>
              decide (rp.2.nominal < (alookup flvUsage rp.1).getD 0))
        | none => false))

/-- `func (c *ClusterQueue) UpdateRGByResource()`. -/
def updateRGByResource (c : ClusterQueue) : ClusterQueue :=
  { c with rgByResource :=
      c.resourceGroups.enum.foldl (fun acc p =>
        p.2.coveredResources.foldl (fun a r => ainsert a r p.1) acc) [] }

/-- `func (c *ClusterQueue) updateResourceGroups(in []kueue.ResourceGroup)`:
rebuilds `resourceGroups` from the spec (flavor order preserved verbatim,
per-flavor resource maps built by map assignment) and the resource→group
index. -/
def updateResourceGroups (c : ClusterQueue) (rgsIn : List KResourceGroup) : ClusterQueue :=
  let buildQuota := fun (rIn : KResourceQuota) =>
    ({ nominal := resourceValue rIn.name rIn.nominalQuota
       borrowingLimit := rIn.borrowingLimit.map (fun b => resourceValue rIn.name b) } : ResourceQuota)
  let buildFlavor := fun (fIn : KFlavorQuotas) =>
    ({ name := fIn.name
       resources := fIn.resources.foldl (fun acc rIn => ainsert acc rIn.name (buildQuota rIn)) [] }
      : FlavorQuotas)
  let rgs := rgsIn.map (fun rgIn =>
    ({ coveredResources := rgIn.coveredResources
       flavors := rgIn.flavors.map buildFlavor
       labelKeys := none } : ResourceGroup))
  updateRGByResource { c with resourceGroups := rgs }

/-- `sets.Set[string].Insert` on the list model: no-op when already present. -/
def insertKey (ks : List String) (k : String) : List String :=
  if k ∈ ks then ks else ks ++ [k]

/-- The label keys advertised by a registered flavor (`flv.Spec.NodeLabels` keys). -/
def flavorKeys (flv : ResourceFlavor) : List String :=
  flv.nodeLabels.map (fun p => p.1)

/-- The `keys`/`flavorNotFound` accumulation of `updateLabelKeys` for the
flavors of one resource group. -/
def collectGroupKeys (flavors : FlavorRegistry) (fqs : List FlavorQuotas) : List String × Bool :=
  fqs.foldl (fun acc rf =>
    match alookup flavors rf.name with
    | some flv => ((flavorKeys flv).foldl insertKey acc.1, acc.2)
    | none => (acc.1, true)) ([], false)

/-- The per-group body of `updateLabelKeys`: clear the key set of a flavorless
group; otherwise recompute the keys and install them only when non-empty. -/
def updateLabelKeysRG (flavors : FlavorRegistry) (rg : ResourceGroup) : ResourceGroup × Bool :=
  if rg.flavors.isEmpty then ({ rg with labelKeys := none }, false)
  else
    let kb := collectGroupKeys flavors rg.flavors
    (if 0 < kb.1.length then { rg with labelKeys := some kb.1 } else rg, kb.2)

/-- `func (c *ClusterQueue) updateLabelKeys(flavors) bool`: returns the state
with per-group label keys refreshed together with `flavorNotFound`. -/
def updateLabelKeys (c : ClusterQueue) (flavors : FlavorRegistry) : ClusterQueue × Bool :=
  let rgs := c.resourceGroups.map (updateLabelKeysRG flavors)
  ({ c with resourceGroups := rgs.map Prod.fst }, rgs.any Prod.snd)

/-- `func (c *ClusterQueue) UpdateWithFlavors(flavors)`: recompute label keys,
then set status to pending/active unless the queue is terminating. -/
def UpdateWithFlavors (c : ClusterQueue) (flavors : FlavorRegistry) : ClusterQueue :=
  let cb := updateLabelKeys c flavors
  let status := if cb.2 then ClusterQueueStatus.pending else ClusterQueueStatus.active
  if cb.1.status ≠ ClusterQueueStatus.terminating then { cb.1 with status := status } else cb.1

/-- Inner loop of the "Cleanup removed flavors or resources" block of `update`:
the rebuilt usage map of one spec flavor, carrying forward existing counts. -/
def pruneFlavorUsage (existing : Option ResourceUsage) (resList : List KResourceQuota) : ResourceUsage :=
  resList.foldl (fun ur rIn =>
    ainsert ur rIn.name ((existing.bind (fun m => alookup m rIn.name)).getD 0)) []

/-- The "Cleanup removed flavors or resources" block of `update` (lines
134-146): rebuild the ledger over exactly the spec's flavor/resource pairs. -/
def pruneUsage (rgsIn : List KResourceGroup) (old : FlavorResourceQuantities) : FlavorResourceQuantities :=
  rgsIn.foldl (fun acc rg =>
    rg.flavors.foldl (fun acc2 f =>
      ainsert acc2 f.name (pruneFlavorUsage (alookup old f.name) f.resources)) acc) []

/-- `func (c *ClusterQueue) update(in, resourceFlavors) error`.  Returns the
post-call state and the optional error; on a malformed selector the early
return happens after `updateResourceGroups` already ran, as in the source. -/
def update (c : ClusterQueue) (spec : ClusterQueueSpec) (resourceFlavors : FlavorRegistry) :
    ClusterQueue × Option String :=
  let c1 := updateResourceGroups c spec.resourceGroups
  match labelSelectorAsSelector spec.namespaceSelector with
  | Except.error e => (c1, some e)
  | Except.ok nsSel =>
    let c2 := { c1 with namespaceSelector := nsSel }
    let c3 := { c2 with usage := pruneUsage spec.resourceGroups c2.usage }
    let c4 := UpdateWithFlavors c3 resourceFlavors
    ({ c4 with preemption := spec.preemption.getD defaultPreemption }, none)

/-- `flv[wlRes] += v*m` guarded by cell existence, at the resource level: a map
over the bindings leaves a missing cell missing and bumps a present one. -/
def bumpRes (r : ResourceName) (d : Int) (ru : ResourceUsage) : ResourceUsage :=
  ru.map (fun p => if p.1 = r then (p.1, p.2 + d) else p)

/-- The guarded increment of one ledger cell performed by `updateUsage`: adds
`d` to `u[f][r]` only when both the flavor map and the cell exist. -/
def bumpCell (f : FlavorRef) (r : ResourceName) (d : Int) (u : FlavorResourceQuantities) :
    FlavorResourceQuantities :=
  u.map (fun p => if p.1 = f then (p.1, bumpRes r d p.2) else p)

/-- Inner loop of `updateUsage` over one pod-set: for every requested resource
with an assigned flavor, bump the matching existing cell by `v * m`. -/
def updatePodSet (ps : PodSetRequests) (m : Int) (acc : FlavorResourceQuantities) :
    FlavorResourceQuantities :=
  ps.flavors.foldl (fun acc2 pf =>
    match alookup ps.requests pf.1 with
    | some v => bumpCell pf.2 pf.1 (v * m) acc2
    | none => acc2) acc

/-- `func updateUsage(wi, flvUsage, m)`: for every pod-set and every requested
resource with an assigned flavor, bump the matching existing cell by `v * m`. -/
def updateUsage (wi : WorkloadInfo) (flvUsage : FlavorResourceQuantities) (m : Int) :
    FlavorResourceQuantities :=
  wi.totalRequests.foldl (fun acc ps => updatePodSet ps m acc) flvUsage

/-- `func (c *ClusterQueue) updateWorkloadUsage(wi, m)`: apply the workload to
the queue ledger and mirror it into the registered tenant queue, if any. -/
def updateWorkloadUsage (c : ClusterQueue) (wi : WorkloadInfo) (m : Int) : ClusterQueue :=
  let c1 := { c with usage := updateUsage wi c.usage m }
  let qKey := queueKeyForWorkload wi.obj
  match alookup c1.localQueues qKey with
  | some lq =>
      let lq2 : queue :=
        { lq with usage := updateUsage wi lq.usage m
                  admittedWorkloads := lq.admittedWorkloads + m }
      { c1 with localQueues := ainsert c1.localQueues qKey lq2 }
  | none => c1

/-- `func (c *ClusterQueue) addWorkload(w) error`. -/
def addWorkload (c : ClusterQueue) (w : Workload) : ClusterQueue × Option String :=
  let k := workloadKey w
  match alookup c.workloads k with
  | some _ => (c, some "workload already exists in ClusterQueue")
  | none =>
    let wi := newInfo w
    let c1 := { c with workloads := ainsert c.workloads k wi }
    let c2 := updateWorkloadUsage c1 wi 1
    let c3 :=
      if c2.podsReadyTracking && !w.podsReady then
        { c2 with workloadsNotReady := insertKey c2.workloadsNotReady k }
      else c2
    (c3, none)

/-- `func (c *ClusterQueue) deleteWorkload(w)`. -/
def deleteWorkload (c : ClusterQueue) (w : Workload) : ClusterQueue :=
  let k := workloadKey w
  match alookup c.workloads k with
  | none => c
  | some wi =>
    let c1 := updateWorkloadUsage c wi (-1)
    let c2 :=
      if c1.podsReadyTracking && !w.podsReady then
        { c1 with workloadsNotReady := c1.workloadsNotReady.filter (fun x => x != k) }
      else c1
    { c2 with workloads := aerase c2.workloads k }

/-- `func (q *queue) resetFlavorsAndResources(cqUsage)`: reshape the tenant
ledger to the queue ledger's cells, carrying forward existing tenant counts. -/
def resetFlavorsAndResources (q : queue) (cqUsage : FlavorResourceQuantities) : queue :=
  { q with usage :=
      cqUsage.foldl (fun acc p =>
        ainsert acc p.1 (p.2.foldl (fun ur rp =>
          ainsert ur rp.1 (((alookup q.usage p.1).bind (fun m => alookup m rp.1)).getD 0)) [])) [] }

/-- The loop body of `addLocalQueue` over the tracked workloads: fold a
workload belonging to the tenant queue into its ledger and admitted count. -/
def backfillStep (q : LocalQueue) (acc : queue) (p : String × WorkloadInfo) : queue :=
  if workloadBelongsToLocalQueue p.2.obj q then
    { acc with usage := updateUsage p.2 acc.usage 1
               admittedWorkloads := acc.admittedWorkloads + 1 }
  else acc

/-- `func (c *ClusterQueue) addLocalQueue(q) error`: register a tenant queue
and backfill its ledger and admitted count from the tracked workloads. -/
def addLocalQueue (c : ClusterQueue) (q : LocalQueue) : ClusterQueue × Option String :=
  let qKey := queueKey q
  match alookup c.localQueues qKey with
  | some _ => (c, some "queue already exists")
  | none =>
    let qImpl : queue := { key := qKey, admittedWorkloads := 0, usage := [] }
    let qImpl2 := resetFlavorsAndResources qImpl c.usage
    let qImpl3 := c.workloads.foldl (backfillStep q) qImpl2
    ({ c with localQueues := ainsert c.localQueues qKey qImpl3 }, none)

/-- `func (c *ClusterQueue) deleteLocalQueue(q)`. -/
def deleteLocalQueue (c : ClusterQueue) (q : LocalQueue) : ClusterQueue :=
  { c with localQueues := aerase c.localQueues (queueKey q) }

/-- `func (c *ClusterQueue) flavorInUse(flavor) bool`. -/
def flavorInUse (c : ClusterQueue) (flavor : String) : Bool :=
  c.resourceGroups.any (fun rg => rg.flavors.any (fun f => f.name == flavor))

/-- The (flavor, resource, quantity) entries of one pod-set that carry both a
request and an assigned flavor: the entries `updateUsage` applies. -/
def psTriples (ps : PodSetRequests) : List (FlavorRef × ResourceName × Int) :=
  ps.flavors.filterMap (fun pf => (alookup ps.requests pf.1).map (fun v => (pf.2, pf.1, v)))

/-- All (flavor, resource, quantity) entries of a workload. -/
def wlTriples (wi : WorkloadInfo) : List (FlavorRef × ResourceName × Int) :=
  wi.totalRequests.flatMap psTriples

/-- Applying a list of guarded cell bumps scaled by `m`; `updateUsage` is this
fold over `wlTriples`. -/
def foldBump (ts : List (FlavorRef × ResourceName × Int)) (m : Int)
    (u : FlavorResourceQuantities) : FlavorResourceQuantities :=
  ts.foldl (fun acc t => bumpCell t.1 t.2.1 (t.2.2 * m) acc) u

/-- The total quantity a triple list contributes to the cell `(f, r)`. -/
def cellTotal (ts : List (FlavorRef × ResourceName × Int)) (f : FlavorRef)
    (r : ResourceName) : Int :=
  (ts.map (fun t => if t.1 = f ∧ t.2.1 = r then t.2.2 else 0)).sum

/-- The total quantity a workload commits to the cell `(f, r)`: the sum of its
requested quantities over pod-sets whose resource `r` was assigned flavor `f`. -/
def wlCellTotal (wi : WorkloadInfo) (f : FlavorRef) (r : ResourceName) : Int :=
  cellTotal (wlTriples wi) f r

/-- The flavor/resource pairs declared by a quota spec. -/
def declaredIn (rgsIn : List KResourceGroup) (f : FlavorRef) (r : ResourceName) : Prop :=
  ∃ rg ∈ rgsIn, ∃ fq ∈ rg.flavors, fq.name = f ∧ ∃ rq ∈ fq.resources, rq.name = r

instance (rgsIn : List KResourceGroup) (f : FlavorRef) (r : ResourceName) :
    Decidable (declaredIn rgsIn f r) := by
  unfold declaredIn
  infer_instance

/-- Some flavor named in some resource group is absent from the registry. -/
def flavorMissing (rgs : List ResourceGroup) (flavors : FlavorRegistry) : Bool :=
  rgs.any (fun rg => rg.flavors.any (fun fq => (alookup flavors fq.name).isNone))

/-- Every nominal quota declared across the resource groups is non-negative
(the spec's well-formedness assumption on quantities). -/
def nominalsNonneg (rgs : List ResourceGroup) : Prop :=
  ∀ rg ∈ rgs, ∀ fq ∈ rg.flavors, ∀ rp ∈ fq.resources, 0 ≤ rp.2.nominal

instance (rgs : List ResourceGroup) : Decidable (nominalsNonneg rgs) := by
  unfold nominalsNonneg
  infer_instance

/-- Spec-side reading of the C9 sentence: the union of the affinity label keys
advertised by every flavor of the group that is currently registered. -/
def specGroupLabelKeyUnion (flavors : FlavorRegistry) (fqs : List FlavorQuotas) : List String :=
  fqs.flatMap (fun fq =>
    match alookup flavors fq.name with
    | some flv => flavorKeys flv
    | none => [])

/-! ## Concrete instances used by witnesses and counterexamples -/

def emptySel : LabelSelector := { matchLabels := [], matchExpressions := [] }

def cqBase : ClusterQueue :=
  { name := "cq", cohort := none, resourceGroups := [], rgByResource := [],
    usage := [], workloads := [], workloadsNotReady := [],
    namespaceSelector := emptySel, preemption := defaultPreemption,
    status := ClusterQueueStatus.active, localQueues := [],
    podsReadyTracking := false }

def wEx2 : Workload :=
  { nspace := "ns", wname := "job-a", queueName := "tenant-q", podsReady := true,
    podSets := [{ requests := [("cpu", 2)], flavors := [("cpu", "default")] }] }

def cEx2 : ClusterQueue := { cqBase with usage := [("default", [("cpu", 5)])] }

def wEx5 : Workload :=
  { nspace := "ns", wname := "job-b", queueName := "tenant-q", podsReady := true,
    podSets := [{ requests := [("cpu", 2)], flavors := [("cpu", "default")] }] }

def cEx5 : ClusterQueue := { cqBase with usage := [("default", [("cpu", 5)])] }

def wEx6nr : Workload :=
  { nspace := "ns", wname := "job-c", queueName := "tenant-q", podsReady := false,
    podSets := [] }

def wEx6rdy : Workload :=
  { nspace := "ns", wname := "job-c", queueName := "tenant-q", podsReady := true,
    podSets := [] }

def cEx6 : ClusterQueue :=
  (addWorkload { cqBase with podsReadyTracking := true } wEx6nr).1

def fqEx9 : FlavorQuotas := { name := "F", resources := [] }

def rgEx9 : ResourceGroup :=
  { coveredResources := ["cpu"], flavors := [fqEx9], labelKeys := some ["zone"] }

def cEx9 : ClusterQueue := { cqBase with resourceGroups := [rgEx9] }

def regEx9 : FlavorRegistry := [("F", { nodeLabels := [] })]

def regEx9b : FlavorRegistry := [("F", { nodeLabels := [("zone", "z1"), ("gpu", "a100")] })]

def cEx1 : ClusterQueue :=
  { cqBase with usage := [("F", [("cpu", 3), ("mem", 7)]), ("G", [("cpu", 1)])] }

def kq (n : ResourceName) (q : Int) : KResourceQuota :=
  { name := n, nominalQuota := q, borrowingLimit := none }

def rgSpecEx1 : KResourceGroup :=
  { coveredResources := ["cpu", "gpu"]
    flavors := [{ name := "F", resources := [kq "cpu" 10, kq "gpu" 4] }] }

def specEx1 : ClusterQueueSpec :=
  { resourceGroups := [rgSpecEx1], namespaceSelector := emptySel, preemption := none }

def badSel : LabelSelector :=
  { matchLabels := []
    matchExpressions := [{ key := "team", op := SelectorOperator.opExists, values := ["x"] }] }

def cEx4 : ClusterQueue := { cqBase with usage := [("F", [("cpu", 2)])] }

def rgSpecEx4 : KResourceGroup :=
  { coveredResources := ["cpu"]
    flavors := [{ name := "F", resources := [kq "cpu" 4] }] }

def specEx4 : ClusterQueueSpec :=
  { resourceGroups := [rgSpecEx4], namespaceSelector := badSel, preemption := none }

def fqEx8 : FlavorQuotas :=
  { name := "F", resources := [("R", { nominal := 10, borrowingLimit := none })] }

def rgEx8 : ResourceGroup :=
  { coveredResources := ["R"], flavors := [fqEx8], labelKeys := none }

def cEx8 : ClusterQueue :=
  { cqBase with
    cohort := some "team"
    resourceGroups := [rgEx8]
    usage := [("F", [("R", 11)])] }

def qW7 : LocalQueue := { nspace := "ns", qname := "tq" }

def wiW7a : WorkloadInfo := newInfo
  { nspace := "ns", wname := "a", queueName := "tq", podsReady := true,
    podSets := [{ requests := [("cpu", 2)], flavors := [("cpu", "F")] }] }

def wiW7b : WorkloadInfo := newInfo
  { nspace := "ns", wname := "b", queueName := "tq", podsReady := true,
    podSets := [{ requests := [("cpu", 3)], flavors := [("cpu", "F")] }] }

def wiW7c : WorkloadInfo := newInfo
  { nspace := "ns", wname := "c", queueName := "other", podsReady := true,
    podSets := [{ requests := [("cpu", 9)], flavors := [("cpu", "F")] }] }

def cW7 : ClusterQueue :=
  { cqBase with
    usage := [("F", [("cpu", 0)])]
    workloads := [("ns/a", wiW7a), ("ns/b", wiW7b), ("ns/c", wiW7c)] }

def lqEx10 : queue :=
  { key := "ns/tq", admittedWorkloads := 0, usage := [("F", [("cpu", 0)])] }

def cEx10 : ClusterQueue :=
  { cqBase with
    usage := [("F", [("cpu", 0)])]
    localQueues := [("ns/tq", lqEx10)] }

def rgSpecEx10 : KResourceGroup :=
  { coveredResources := ["mem"]
    flavors := [{ name := "G", resources := [kq "mem" 8] }] }

def specEx10 : ClusterQueueSpec :=
  { resourceGroups := [rgSpecEx10], namespaceSelector := emptySel, preemption := none }

def qW10 : LocalQueue := { nspace := "ns", qname := "tq" }

def cW10 : ClusterQueue := { cqBase with usage := [("F", [("cpu", 0)])] }

def qImplW10 : queue :=
  { key := "ns/tq", admittedWorkloads := 0, usage := [("F", [("cpu", 0)])] }

def wEx10c : Workload :=
  { nspace := "ns", wname := "z", queueName := "tq", podsReady := true, podSets := [] }

/-! ## Association-list lemmas -/

theorem alookup_ainsert {β : Type} (m : List (String × β)) (k : String) (v : β) (key : String) :
    alookup (ainsert m k v) key = if key = k then some v else alookup m key := by
  induction m with
  | nil =>
      simp only [ainsert, alookup]
      split_ifs <;> simp_all
  | cons p t ih =>
      simp only [ainsert, alookup]
      split_ifs <;> simp_all [alookup, ih]

theorem alookup_aerase {β : Type} (m : List (String × β)) (k key : String) :
    alookup (aerase m k) key = if key = k then none else alookup m key := by
  induction m with
  | nil => simp [aerase, alookup]
  | cons p t ih =>
      simp only [aerase, alookup]
      split_ifs <;> simp_all [alookup, ih]

/-! ## Cell-bump algebra -/

theorem alookup_bumpRes (ru : ResourceUsage) (r : ResourceName) (d : Int) (key : ResourceName) :
    alookup (bumpRes r d ru) key =
      if key = r then (alookup ru key).map (fun v => v + d) else alookup ru key := by
  induction ru with
  | nil => simp [bumpRes, alookup]
  | cons p t ih =>
      simp only [bumpRes, List.map_cons, alookup]
      split_ifs <;> simp_all [bumpRes, alookup, ih]

theorem alookup_bumpCell (u : FlavorResourceQuantities) (f : FlavorRef) (r : ResourceName)
    (d : Int) (key : FlavorRef) :
    alookup (bumpCell f r d u) key =
      if key = f then (alookup u key).map (bumpRes r d) else alookup u key := by
  induction u with
  | nil => simp [bumpCell, alookup]
  | cons p t ih =>
      simp only [bumpCell, List.map_cons, alookup]
      split_ifs <;> simp_all [bumpCell, alookup, ih]

theorem lookupCell_bumpCell (u : FlavorResourceQuantities) (f : FlavorRef) (r : ResourceName)
    (d : Int) (kf : FlavorRef) (kr : ResourceName) :
    lookupCell (bumpCell f r d u) kf kr =
      if kf = f ∧ kr = r then (lookupCell u kf kr).map (fun v => v + d)
      else lookupCell u kf kr := by
  simp only [lookupCell, alookup_bumpCell]
  by_cases hf : kf = f
  · cases halu : alookup u kf with
    | none => simp [hf]
    | some ru =>
        simp only [if_pos hf, halu, Option.map_some']
        rw [alookup_bumpRes]
        by_cases hr : kr = r <;> simp [hf, hr]
  · simp [hf]

set_option linter.unnecessarySeqFocus false

theorem bumpRes_comm (r1 r2 : ResourceName) (d1 d2 : Int) (ru : ResourceUsage) :
    bumpRes r1 d1 (bumpRes r2 d2 ru) = bumpRes r2 d2 (bumpRes r1 d1 ru) := by
  induction ru with
  | nil => rfl
  | cons p t ih =>
      obtain ⟨a, b⟩ := p
      by_cases h1 : a = r1 <;> by_cases h2 : a = r2 <;>
        simp_all [bumpRes] <;> omega

theorem bumpCell_comm (f1 f2 : FlavorRef) (r1 r2 : ResourceName) (d1 d2 : Int)
    (u : FlavorResourceQuantities) :
    bumpCell f1 r1 d1 (bumpCell f2 r2 d2 u) = bumpCell f2 r2 d2 (bumpCell f1 r1 d1 u) := by
  induction u with
  | nil => rfl
  | cons p t ih =>
      obtain ⟨a, b⟩ := p
      by_cases h1 : a = f1 <;> by_cases h2 : a = f2 <;>
        simp_all [bumpCell, bumpRes_comm]

theorem bumpRes_cancel (r : ResourceName) (d : Int) (ru : ResourceUsage) :
    bumpRes r (-d) (bumpRes r d ru) = ru := by
  induction ru with
  | nil => rfl
  | cons p t ih =>
      obtain ⟨a, b⟩ := p
      by_cases h : a = r <;> simp_all [bumpRes]

theorem bumpCell_cancel (f : FlavorRef) (r : ResourceName) (d : Int)
    (u : FlavorResourceQuantities) :
    bumpCell f r (-d) (bumpCell f r d u) = u := by
  induction u with
  | nil => rfl
  | cons p t ih =>
      obtain ⟨a, b⟩ := p
      by_cases h : a = f <;> simp_all [bumpCell, bumpRes_cancel]

/-! ## Fold-level lemmas about `foldBump` and `updateUsage` -/

theorem foldBump_cons (t : FlavorRef × ResourceName × Int)
    (ts : List (FlavorRef × ResourceName × Int)) (m : Int) (u : FlavorResourceQuantities) :
    foldBump (t :: ts) m u = foldBump ts m (bumpCell t.1 t.2.1 (t.2.2 * m) u) := rfl

theorem foldBump_append (l1 l2 : List (FlavorRef × ResourceName × Int)) (m : Int)
    (u : FlavorResourceQuantities) :
    foldBump (l1 ++ l2) m u = foldBump l2 m (foldBump l1 m u) := by
  simp [foldBump, List.foldl_append]

theorem bumpCell_foldBump (f : FlavorRef) (r : ResourceName) (d : Int)
    (ts : List (FlavorRef × ResourceName × Int)) (m : Int) (u : FlavorResourceQuantities) :
    bumpCell f r d (foldBump ts m u) = foldBump ts m (bumpCell f r d u) := by
  induction ts generalizing u with
  | nil => rfl
  | cons t ts ih =>
      rw [foldBump_cons, foldBump_cons, ih, bumpCell_comm]

theorem foldBump_cancel (ts : List (FlavorRef × ResourceName × Int)) (m : Int)
    (u : FlavorResourceQuantities) :
    foldBump ts (-m) (foldBump ts m u) = u := by
  induction ts generalizing u with
  | nil => rfl
  | cons t ts ih =>
      rw [foldBump_cons, foldBump_cons, bumpCell_foldBump,
          show t.2.2 * -m = -(t.2.2 * m) from by ring, bumpCell_cancel, ih]

theorem lookupCell_foldBump (ts : List (FlavorRef × ResourceName × Int)) (m : Int)
    (u : FlavorResourceQuantities) (f : FlavorRef) (r : ResourceName) :
    lookupCell (foldBump ts m u) f r =
      (lookupCell u f r).map (fun v => v + m * cellTotal ts f r) := by
  induction ts generalizing u with
  | nil => cases hv : lookupCell u f r <;> simp [foldBump, cellTotal, hv]
  | cons t ts ih =>
      obtain ⟨tf, tr, tv⟩ := t
      rw [foldBump_cons, ih, lookupCell_bumpCell]
      by_cases h1 : tf = f <;> by_cases h2 : tr = r <;>
        cases hv : lookupCell u f r <;>
        simp_all [cellTotal, eq_comm] <;> ring

theorem updatePodSet_eq_foldBump (ps : PodSetRequests) (m : Int) (u : FlavorResourceQuantities) :
    updatePodSet ps m u = foldBump (psTriples ps) m u := by
  simp only [updatePodSet, psTriples]
  generalize ps.flavors = l
  induction l generalizing u with
  | nil => rfl
  | cons pf l ih =>
      simp only [List.foldl_cons, List.filterMap_cons]
      cases h : alookup ps.requests pf.1 with
      | none => simp [h, ih]
      | some v => simp [h, ih, foldBump]

theorem updateUsage_eq_foldBump (wi : WorkloadInfo) (u : FlavorResourceQuantities) (m : Int) :
    updateUsage wi u m = foldBump (wlTriples wi) m u := by
  simp only [updateUsage, wlTriples]
  generalize wi.totalRequests = l
  induction l generalizing u with
  | nil => rfl
  | cons ps pss ih =>
      simp only [List.foldl_cons, List.flatMap_cons, foldBump_append]
      rw [updatePodSet_eq_foldBump, ih]

theorem updateUsage_cancel (wi : WorkloadInfo) (u : FlavorResourceQuantities) :
    updateUsage wi (updateUsage wi u 1) (-1) = u := by
  rw [updateUsage_eq_foldBump, updateUsage_eq_foldBump]
  exact foldBump_cancel (wlTriples wi) 1 u

theorem lookupCell_updateUsage (wi : WorkloadInfo) (u : FlavorResourceQuantities) (m : Int)
    (f : FlavorRef) (r : ResourceName) :
    lookupCell (updateUsage wi u m) f r =
      (lookupCell u f r).map (fun v => v + m * wlCellTotal wi f r) := by
  rw [updateUsage_eq_foldBump, lookupCell_foldBump, wlCellTotal]

/-! ## Field-level behaviour of the workload operations -/

theorem updateWorkloadUsage_usage (c : ClusterQueue) (wi : WorkloadInfo) (m : Int) :
    (updateWorkloadUsage c wi m).usage = updateUsage wi c.usage m := by
  simp only [updateWorkloadUsage]
  cases alookup c.localQueues (queueKeyForWorkload wi.obj) <;> rfl

theorem updateWorkloadUsage_workloads (c : ClusterQueue) (wi : WorkloadInfo) (m : Int) :
    (updateWorkloadUsage c wi m).workloads = c.workloads := by
  simp only [updateWorkloadUsage]
  cases alookup c.localQueues (queueKeyForWorkload wi.obj) <;> rfl

theorem updateWorkloadUsage_workloadsNotReady (c : ClusterQueue) (wi : WorkloadInfo) (m : Int) :
    (updateWorkloadUsage c wi m).workloadsNotReady = c.workloadsNotReady := by
  simp only [updateWorkloadUsage]
  cases alookup c.localQueues (queueKeyForWorkload wi.obj) <;> rfl

theorem updateWorkloadUsage_podsReadyTracking (c : ClusterQueue) (wi : WorkloadInfo) (m : Int) :
    (updateWorkloadUsage c wi m).podsReadyTracking = c.podsReadyTracking := by
  simp only [updateWorkloadUsage]
  cases alookup c.localQueues (queueKeyForWorkload wi.obj) <;> rfl

theorem alookup_localQueues_updateWorkloadUsage (c : ClusterQueue) (wi : WorkloadInfo) (m : Int)
    (k : String) :
    alookup (updateWorkloadUsage c wi m).localQueues k =
      (alookup c.localQueues k).map (fun lq =>
        if k = queueKeyForWorkload wi.obj then
          { lq with usage := updateUsage wi lq.usage m
                    admittedWorkloads := lq.admittedWorkloads + m }
        else lq) := by
  simp only [updateWorkloadUsage]
  cases h : alookup c.localQueues (queueKeyForWorkload wi.obj) with
  | none =>
      by_cases hk : k = queueKeyForWorkload wi.obj
      · subst hk; simp [h]
      · cases hv : alookup c.localQueues k <;> simp [hk, hv]
  | some lq =>
      simp only [alookup_ainsert]
      by_cases hk : k = queueKeyForWorkload wi.obj
      · subst hk; simp [h]
      · cases hv : alookup c.localQueues k <;> simp [hk, hv]

theorem addWorkload_dup (c : ClusterQueue) (w : Workload) (wi0 : WorkloadInfo)
    (h : alookup c.workloads (workloadKey w) = some wi0) :
    addWorkload c w = (c, some "workload already exists in ClusterQueue") := by
  simp [addWorkload, h]

theorem addWorkload_ok_err (c : ClusterQueue) (w : Workload)
    (h : alookup c.workloads (workloadKey w) = none) :
    (addWorkload c w).2 = none := by
  simp [addWorkload, h, apply_ite Prod.snd]

theorem addWorkload_ok_usage (c : ClusterQueue) (w : Workload)
    (h : alookup c.workloads (workloadKey w) = none) :
    (addWorkload c w).1.usage = updateUsage (newInfo w) c.usage 1 := by
  simp [addWorkload, h, updateWorkloadUsage_usage, apply_ite ClusterQueue.usage]

theorem addWorkload_ok_workloads (c : ClusterQueue) (w : Workload)
    (h : alookup c.workloads (workloadKey w) = none) :
    (addWorkload c w).1.workloads = ainsert c.workloads (workloadKey w) (newInfo w) := by
  simp [addWorkload, h, updateWorkloadUsage_workloads, apply_ite ClusterQueue.workloads]

theorem deleteWorkload_untracked (c : ClusterQueue) (w : Workload)
    (h : alookup c.workloads (workloadKey w) = none) :
    deleteWorkload c w = c := by
  simp [deleteWorkload, h]

theorem deleteWorkload_tracked_usage (c : ClusterQueue) (w : Workload) (wi : WorkloadInfo)
    (h : alookup c.workloads (workloadKey w) = some wi) :
    (deleteWorkload c w).usage = updateUsage wi c.usage (-1) := by
  simp [deleteWorkload, h, updateWorkloadUsage_usage, apply_ite ClusterQueue.usage]

theorem deleteWorkload_tracked_workloads (c : ClusterQueue) (w : Workload) (wi : WorkloadInfo)
    (h : alookup c.workloads (workloadKey w) = some wi) :
    (deleteWorkload c w).workloads = aerase c.workloads (workloadKey w) := by
  simp [deleteWorkload, h, updateWorkloadUsage_workloads, apply_ite ClusterQueue.workloads]

theorem deleteWorkload_tracked_notReady (c : ClusterQueue) (w : Workload) (wi : WorkloadInfo)
    (h : alookup c.workloads (workloadKey w) = some wi) :
    (deleteWorkload c w).workloadsNotReady =
      (if c.podsReadyTracking && !w.podsReady then
         c.workloadsNotReady.filter (fun x => x != workloadKey w)
       else c.workloadsNotReady) := by
  simp [deleteWorkload, h, updateWorkloadUsage_workloadsNotReady,
        updateWorkloadUsage_podsReadyTracking, apply_ite ClusterQueue.workloadsNotReady,
        apply_ite ClusterQueue.podsReadyTracking]

/-! ## C2: paired admit and remove round-trip on the usage ledger -/

/-- C2: admitting a workload whose identity is not yet tracked and then
removing the same workload (no quota reconfiguration in between) leaves the
queue's usage ledger equal to the ledger before the sequence began. -/
theorem addThenDeleteWorkload_usage_roundtrip (c : ClusterQueue) (w : Workload)
    (h : alookup c.workloads (workloadKey w) = none) :
    (deleteWorkload (addWorkload c w).1 w).usage = c.usage := by
  have hlook : alookup (addWorkload c w).1.workloads (workloadKey w) = some (newInfo w) := by
    rw [addWorkload_ok_workloads c w h, alookup_ainsert]
    simp
  rw [deleteWorkload_tracked_usage _ _ _ hlook, addWorkload_ok_usage c w h, updateUsage_cancel]

/-- C2 witness: the round-trip theorem applied at a concrete queue/workload. -/
theorem addThenDeleteWorkload_usage_roundtrip_check :
    alookup cEx2.workloads (workloadKey wEx2) = none ∧
    (deleteWorkload (addWorkload cEx2 wEx2).1 wEx2).usage = cEx2.usage :=
  ⟨by decide, addThenDeleteWorkload_usage_roundtrip cEx2 wEx2 (by decide)⟩

/-! ## C5: admitting a workload -/

/-- C5: admitting a workload with an already-tracked identity fails with the
duplicate error and mutates nothing; otherwise the workload is recorded under
its identity and every existing ledger cell grows by the workload's total
commitment to that cell, while missing cells are silently skipped. -/
theorem addWorkload_admit_spec (c : ClusterQueue) (w : Workload) :
    (∀ wi0, alookup c.workloads (workloadKey w) = some wi0 →
        addWorkload c w = (c, some "workload already exists in ClusterQueue")) ∧
    (alookup c.workloads (workloadKey w) = none →
        (addWorkload c w).2 = none ∧
        alookup (addWorkload c w).1.workloads (workloadKey w) = some (newInfo w) ∧
        (∀ f r v, lookupCell c.usage f r = some v →
            lookupCell (addWorkload c w).1.usage f r = some (v + wlCellTotal (newInfo w) f r)) ∧
        (∀ f r, lookupCell c.usage f r = none →
            lookupCell (addWorkload c w).1.usage f r = none)) := by
  refine ⟨fun wi0 h => addWorkload_dup c w wi0 h,
    fun h => ⟨addWorkload_ok_err c w h, ?_, ?_, ?_⟩⟩
  · rw [addWorkload_ok_workloads c w h, alookup_ainsert]
    simp
  · intro f r v hv
    rw [addWorkload_ok_usage c w h, lookupCell_updateUsage, hv]
    simp
  · intro f r hv
    rw [addWorkload_ok_usage c w h, lookupCell_updateUsage, hv]
    rfl

/-- C5 witness: on a queue with `usage["default"]["cpu"] = 5`, admitting a
fresh workload requesting 2 cpu on flavor `default` yields a ledger cell of 7. -/
theorem addWorkload_admit_spec_check :
    lookupCell (addWorkload cEx5 wEx5).1.usage "default" "cpu" = some 7 :=
  (((addWorkload_admit_spec cEx5 wEx5).2 (by decide)).2.2.1 "default" "cpu" 5
      (by decide)).trans (by decide)

/-! ## C6: removing a workload -/

/-- C6 counterexample: the identity `ns/job-c` is tracked and present in the
not-ready set, but removing it with a workload object that meanwhile reports
pods-ready leaves it sitting in the not-ready set, contradicting the claim
that removal removes the identity from the not-ready set whenever present. -/
theorem deleteWorkload_notReady_stale :
    alookup cEx6.workloads (workloadKey wEx6rdy) = some (newInfo wEx6nr) ∧
    workloadKey wEx6rdy ∈ cEx6.workloadsNotReady ∧
    alookup (deleteWorkload cEx6 wEx6rdy).workloads (workloadKey wEx6rdy) = none ∧
    workloadKey wEx6rdy ∈ (deleteWorkload cEx6 wEx6rdy).workloadsNotReady := by
  decide

/-- C6 amended: removing a tracked identity decrements exactly the cells the
stored workload info had incremented (skipping cells that no longer exist),
removes the identity from the tracked set, and removes it from the not-ready
set exactly when the queue tracks pod readiness and the workload object passed
to removal does not report pods-ready; removing an untracked identity is a
no-op and not an error. -/
theorem deleteWorkload_remove_spec (c : ClusterQueue) (w : Workload) :
    (alookup c.workloads (workloadKey w) = none → deleteWorkload c w = c) ∧
    (∀ wi, alookup c.workloads (workloadKey w) = some wi →
        alookup (deleteWorkload c w).workloads (workloadKey w) = none ∧
        (∀ f r v, lookupCell c.usage f r = some v →
            lookupCell (deleteWorkload c w).usage f r = some (v - wlCellTotal wi f r)) ∧
        (∀ f r, lookupCell c.usage f r = none →
            lookupCell (deleteWorkload c w).usage f r = none) ∧
        (deleteWorkload c w).workloadsNotReady =
          (if c.podsReadyTracking && !w.podsReady then
             c.workloadsNotReady.filter (fun x => x != workloadKey w)
           else c.workloadsNotReady)) := by
  refine ⟨deleteWorkload_untracked c w,
    fun wi h => ⟨?_, ?_, ?_, deleteWorkload_tracked_notReady c w wi h⟩⟩
  · rw [deleteWorkload_tracked_workloads c w wi h, alookup_aerase]
    simp
  · intro f r v hv
    rw [deleteWorkload_tracked_usage c w wi h, lookupCell_updateUsage, hv]
    simp only [Option.map_some', Option.some.injEq]
    ring
  · intro f r hv
    rw [deleteWorkload_tracked_usage c w wi h, lookupCell_updateUsage, hv]
    rfl

/-- C6 witness: the amended removal theorem applied at a concrete queue with a
tracked identity. -/
theorem deleteWorkload_remove_spec_check :
    alookup (deleteWorkload cEx6 wEx6nr).workloads (workloadKey wEx6nr) = none :=
  ((deleteWorkload_remove_spec cEx6 wEx6nr).2 (newInfo wEx6nr) (by decide)).1

/-! ## C3: eligibility status after flavor reconciliation -/

theorem collectGroupKeys_loop_snd (flavors : FlavorRegistry) (fqs : List FlavorQuotas)
    (init : List String × Bool) :
    (fqs.foldl (fun acc rf =>
      match alookup flavors rf.name with
      | some flv => ((flavorKeys flv).foldl insertKey acc.1, acc.2)
      | none => (acc.1, true)) init).2 =
    (init.2 || fqs.any (fun fq => (alookup flavors fq.name).isNone)) := by
  induction fqs generalizing init with
  | nil => simp
  | cons fq rest ih =>
      simp only [List.foldl_cons, List.any_cons]
      cases halu : alookup flavors fq.name <;> simp [halu, ih]

theorem collectGroupKeys_snd (flavors : FlavorRegistry) (fqs : List FlavorQuotas) :
    (collectGroupKeys flavors fqs).2 = fqs.any (fun fq => (alookup flavors fq.name).isNone) := by
  rw [collectGroupKeys, collectGroupKeys_loop_snd]
  rfl

theorem updateLabelKeysRG_snd (flavors : FlavorRegistry) (rg : ResourceGroup) :
    (updateLabelKeysRG flavors rg).2 =
      rg.flavors.any (fun fq => (alookup flavors fq.name).isNone) := by
  simp only [updateLabelKeysRG]
  split_ifs with he h2
  · rw [List.isEmpty_iff.mp he]
    rfl
  · rw [collectGroupKeys_snd]
  · rw [collectGroupKeys_snd]

theorem updateLabelKeys_snd (c : ClusterQueue) (flavors : FlavorRegistry) :
    (updateLabelKeys c flavors).2 = flavorMissing c.resourceGroups flavors := by
  simp only [updateLabelKeys, flavorMissing]
  generalize c.resourceGroups = l
  induction l with
  | nil => rfl
  | cons rg rest ih => simp [List.any_cons, ih, updateLabelKeysRG_snd]

theorem updateLabelKeys_status (c : ClusterQueue) (flavors : FlavorRegistry) :
    (updateLabelKeys c flavors).1.status = c.status := rfl

/-- C3: after a reconciliation against the flavor registry, a queue that was
not terminating becomes pending exactly when some flavor named in some of its
resource groups is absent from the registry, and active otherwise; a
terminating queue keeps status terminating regardless of the registry. -/
theorem UpdateWithFlavors_status_spec (c : ClusterQueue) (flavors : FlavorRegistry) :
    (UpdateWithFlavors c flavors).status =
      if c.status = ClusterQueueStatus.terminating then ClusterQueueStatus.terminating
      else if flavorMissing c.resourceGroups flavors then ClusterQueueStatus.pending
      else ClusterQueueStatus.active := by
  simp only [UpdateWithFlavors, apply_ite ClusterQueue.status,
             updateLabelKeys_status c flavors, updateLabelKeys_snd c flavors]
  by_cases ht : c.status = ClusterQueueStatus.terminating
  · simp [ht]
  · simp only [ht, if_neg ht, ne_eq, not_false_eq_true, if_true]
    cases flavorMissing c.resourceGroups flavors <;> rfl

/-! ## C9: affinity label-key derivation -/

theorem mem_insertKey (ks : List String) (k x : String) :
    x ∈ insertKey ks k ↔ x ∈ ks ∨ x = k := by
  by_cases h : k ∈ ks
  · simp only [insertKey, if_pos h]
    constructor
    · exact Or.inl
    · rintro (hx | rfl)
      · exact hx
      · exact h
  · simp [insertKey, if_neg h]

theorem mem_foldl_insertKey (ls acc : List String) (x : String) :
    x ∈ ls.foldl insertKey acc ↔ x ∈ acc ∨ x ∈ ls := by
  induction ls generalizing acc with
  | nil => simp
  | cons a ls ih =>
      simp only [List.foldl_cons, ih, mem_insertKey, List.mem_cons]
      tauto

theorem mem_collectGroupKeys_loop (flavors : FlavorRegistry) (fqs : List FlavorQuotas)
    (init : List String × Bool) (x : String) :
    x ∈ (fqs.foldl (fun acc rf =>
      match alookup flavors rf.name with
      | some flv => ((flavorKeys flv).foldl insertKey acc.1, acc.2)
      | none => (acc.1, true)) init).1 ↔
    x ∈ init.1 ∨ x ∈ specGroupLabelKeyUnion flavors fqs := by
  induction fqs generalizing init with
  | nil => simp [specGroupLabelKeyUnion]
  | cons fq rest ih =>
      simp only [List.foldl_cons, specGroupLabelKeyUnion, List.flatMap_cons]
      cases halu : alookup flavors fq.name <;>
        simp [halu, ih, mem_foldl_insertKey, specGroupLabelKeyUnion] <;> tauto

theorem mem_collectGroupKeys (flavors : FlavorRegistry) (fqs : List FlavorQuotas) (x : String) :
    x ∈ (collectGroupKeys flavors fqs).1 ↔ x ∈ specGroupLabelKeyUnion flavors fqs := by
  rw [collectGroupKeys, mem_collectGroupKeys_loop]
  simp

theorem collectGroupKeys_nil_iff (flavors : FlavorRegistry) (fqs : List FlavorQuotas) :
    (collectGroupKeys flavors fqs).1 = [] ↔ specGroupLabelKeyUnion flavors fqs = [] := by
  simp [List.eq_nil_iff_forall_not_mem, mem_collectGroupKeys]

theorem UpdateWithFlavors_resourceGroups (c : ClusterQueue) (flavors : FlavorRegistry) :
    (UpdateWithFlavors c flavors).resourceGroups =
      c.resourceGroups.map (fun rg => (updateLabelKeysRG flavors rg).1) := by
  simp [UpdateWithFlavors, apply_ite ClusterQueue.resourceGroups, updateLabelKeys, List.map_map]

theorem updateLabelKeysRG_fst_spec (flavors : FlavorRegistry) (rg : ResourceGroup) :
    (updateLabelKeysRG flavors rg).1.coveredResources = rg.coveredResources ∧
    (updateLabelKeysRG flavors rg).1.flavors = rg.flavors ∧
    (rg.flavors = [] → (updateLabelKeysRG flavors rg).1.labelKeys = none) ∧
    (rg.flavors ≠ [] → specGroupLabelKeyUnion flavors rg.flavors = [] →
        (updateLabelKeysRG flavors rg).1.labelKeys = rg.labelKeys) ∧
    (rg.flavors ≠ [] → specGroupLabelKeyUnion flavors rg.flavors ≠ [] →
        ∃ ks, (updateLabelKeysRG flavors rg).1.labelKeys = some ks ∧
          ∀ x, x ∈ ks ↔ x ∈ specGroupLabelKeyUnion flavors rg.flavors) := by
  by_cases he : rg.flavors.isEmpty = true
  · have hfe : rg.flavors = [] := List.isEmpty_iff.mp he
    simp [updateLabelKeysRG, he, hfe]
  · have hfe : rg.flavors ≠ [] := by simpa [List.isEmpty_iff] using he
    simp only [updateLabelKeysRG, if_neg he]
    by_cases hU : specGroupLabelKeyUnion flavors rg.flavors = []
    · have hk : (collectGroupKeys flavors rg.flavors).1 = [] :=
        (collectGroupKeys_nil_iff _ _).mpr hU
      simp [hk, hfe, hU]
    · have hk : (collectGroupKeys flavors rg.flavors).1 ≠ [] :=
        fun hh => hU ((collectGroupKeys_nil_iff _ _).mp hh)
      have hlen : 0 < (collectGroupKeys flavors rg.flavors).1.length :=
        List.length_pos.mpr hk
      simp [hlen, hfe, hU, mem_collectGroupKeys]

/-- C9 counterexample: reconciling against a registry where the group's only
flavor is registered with no advertised label keys leaves the stale key set
containing "zone" on the group although the union of keys advertised by the
group's registered flavors is empty, so the group's key set is not that union. -/
theorem updateLabelKeys_stale_keys :
    (UpdateWithFlavors cEx9 regEx9).resourceGroups.map ResourceGroup.labelKeys
        = [some ["zone"]] ∧
    specGroupLabelKeyUnion regEx9 rgEx9.flavors = [] ∧
    rgEx9.flavors ≠ [] := by decide

/-- C9 amended: after a flavor reconciliation, every resource group keeps its
flavors; a group with zero flavors has its label-key set cleared; a group with
flavors receives exactly the union of the label keys advertised by its
registered flavors when that union is non-empty, and keeps its previous
label-key set unchanged when that union is empty. -/
theorem updateLabelKeys_groups_spec (c : ClusterQueue) (flavors : FlavorRegistry) (i : Nat)
    (rg : ResourceGroup) (hrg : c.resourceGroups.get? i = some rg) :
    ∃ rg', (UpdateWithFlavors c flavors).resourceGroups.get? i = some rg' ∧
      rg'.flavors = rg.flavors ∧
      (rg.flavors = [] → rg'.labelKeys = none) ∧
      (rg.flavors ≠ [] → specGroupLabelKeyUnion flavors rg.flavors = [] →
          rg'.labelKeys = rg.labelKeys) ∧
      (rg.flavors ≠ [] → specGroupLabelKeyUnion flavors rg.flavors ≠ [] →
          ∃ ks, rg'.labelKeys = some ks ∧
            ∀ x, x ∈ ks ↔ x ∈ specGroupLabelKeyUnion flavors rg.flavors) := by
  obtain ⟨-, h2, h3, h4, h5⟩ := updateLabelKeysRG_fst_spec flavors rg
  refine ⟨(updateLabelKeysRG flavors rg).1, ?_, h2, h3, h4, h5⟩
  have hrg2 : c.resourceGroups[i]? = some rg := by
    rw [← List.get?_eq_getElem?]
    exact hrg
  rw [UpdateWithFlavors_resourceGroups, List.get?_eq_getElem?, List.getElem?_map, hrg2]
  rfl

/-- C9 witness: the amended theorem applied at a concrete queue and a registry
whose flavor advertises the keys "zone" and "gpu". -/
theorem updateLabelKeys_groups_spec_check :
    ∃ rg', (UpdateWithFlavors cEx9 regEx9b).resourceGroups.get? 0 = some rg' ∧
      ∃ ks, rg'.labelKeys = some ks ∧ "zone" ∈ ks ∧ "gpu" ∈ ks := by
  obtain ⟨rg', hg, -, -, -, h5⟩ :=
    updateLabelKeys_groups_spec cEx9 regEx9b 0 rgEx9 (by decide)
  obtain ⟨ks, hks, hmem⟩ := h5 (by decide) (by decide)
  exact ⟨rg', hg, ks, hks, (hmem "zone").mpr (by decide), (hmem "gpu").mpr (by decide)⟩

/-! ## C1: usage pruning across quota reconfiguration -/

theorem lookupCell_eq_bind (u : FlavorResourceQuantities) (f : FlavorRef) (r : ResourceName) :
    lookupCell u f r = (alookup u f).bind (fun ru => alookup ru r) := by
  cases h : alookup u f <;> simp [lookupCell, h]

theorem alookup_pruneFlavorUsage_loop (existing : Option ResourceUsage)
    (l : List KResourceQuota) (init : ResourceUsage) (r : ResourceName) :
    alookup (l.foldl (fun ur rIn =>
      ainsert ur rIn.name ((existing.bind (fun m => alookup m rIn.name)).getD 0)) init) r =
      if l.any (fun rq => rq.name == r) then
        some ((existing.bind (fun m => alookup m r)).getD 0)
      else alookup init r := by
  induction l generalizing init with
  | nil => simp
  | cons rq l ih =>
      simp only [List.foldl_cons, List.any_cons, ih, alookup_ainsert]
      by_cases hr : rq.name = r
      · simp [hr]
      · simp [hr, Ne.symm hr]

theorem alookup_pruneFlavorUsage (existing : Option ResourceUsage) (l : List KResourceQuota)
    (r : ResourceName) :
    alookup (pruneFlavorUsage existing l) r =
      if l.any (fun rq => rq.name == r) then
        some ((existing.bind (fun m => alookup m r)).getD 0)
      else none := by
  rw [pruneFlavorUsage, alookup_pruneFlavorUsage_loop]
  rfl

theorem lookupCell_pruneFlavors_loop (old : FlavorResourceQuantities)
    (fl : List KFlavorQuotas) (acc : FlavorResourceQuantities)
    (f : FlavorRef) (r : ResourceName) (v : Int)
    (hv : lookupCell (fl.foldl (fun acc2 fq =>
        ainsert acc2 fq.name (pruneFlavorUsage (alookup old fq.name) fq.resources)) acc) f r
        = some v) :
    lookupCell acc f r = some v ∨
      (v = (lookupCell old f r).getD 0 ∧
        ∃ fq ∈ fl, fq.name = f ∧ ∃ rq ∈ fq.resources, rq.name = r) := by
  induction fl generalizing acc with
  | nil => exact Or.inl hv
  | cons fq fl ih =>
      simp only [List.foldl_cons] at hv
      rcases ih _ hv with h | h
  /- entry handled: the cell came from the head flavor's map or from `acc` -/
      · by_cases hf : f = fq.name
        · rw [lookupCell_eq_bind, alookup_ainsert, if_pos hf] at h
          simp only [Option.some_bind] at h
          rw [alookup_pruneFlavorUsage] at h
          by_cases hany : fq.resources.any (fun rq => rq.name == r)
          · rw [if_pos hany] at h
            refine Or.inr ⟨?_, fq, List.mem_cons_self fq fl, hf.symm, ?_⟩
            · rw [lookupCell_eq_bind, hf]
              exact (Option.some.injEq _ _ ▸ h).symm
            · obtain ⟨rq, hrq, hname⟩ := List.any_eq_true.mp hany
              exact ⟨rq, hrq, by simpa using hname⟩
          · rw [if_neg hany] at h
            exact absurd h (by simp)
        · rw [lookupCell_eq_bind, alookup_ainsert, if_neg hf] at h
          exact Or.inl (by rw [lookupCell_eq_bind]; exact h)
      · obtain ⟨fq', hm, rest⟩ := h.2
        exact Or.inr ⟨h.1, fq', List.mem_cons_of_mem _ hm, rest⟩

theorem lookupCell_pruneUsage_loop (old : FlavorResourceQuantities)
    (rgs : List KResourceGroup) (acc : FlavorResourceQuantities)
    (f : FlavorRef) (r : ResourceName) (v : Int)
    (hv : lookupCell (rgs.foldl (fun acc0 rg =>
        rg.flavors.foldl (fun acc2 fq =>
          ainsert acc2 fq.name (pruneFlavorUsage (alookup old fq.name) fq.resources)) acc0)
        acc) f r = some v) :
    lookupCell acc f r = some v ∨
      (v = (lookupCell old f r).getD 0 ∧ declaredIn rgs f r) := by
  induction rgs generalizing acc with
  | nil => exact Or.inl hv
  | cons rg rgs ih =>
      simp only [List.foldl_cons] at hv
      rcases ih _ hv with h | h
      · rcases lookupCell_pruneFlavors_loop old rg.flavors acc f r v h with h2 | h2
        · exact Or.inl h2
        · exact Or.inr ⟨h2.1, rg, List.mem_cons_self rg rgs, h2.2⟩
      · obtain ⟨rg', hm, rest⟩ := h.2
        exact Or.inr ⟨h.1, rg', List.mem_cons_of_mem _ hm, rest⟩

theorem lookupCell_pruneUsage (rgsIn : List KResourceGroup) (old : FlavorResourceQuantities)
    (f : FlavorRef) (r : ResourceName) (v : Int)
    (hv : lookupCell (pruneUsage rgsIn old) f r = some v) :
    v = (lookupCell old f r).getD 0 ∧ declaredIn rgsIn f r := by
  rw [pruneUsage] at hv
  rcases lookupCell_pruneUsage_loop old rgsIn [] f r v hv with h | h
  · exact absurd h (by simp [lookupCell, alookup])
  · exact h

theorem updateResourceGroups_usage (c : ClusterQueue) (rgsIn : List KResourceGroup) :
    (updateResourceGroups c rgsIn).usage = c.usage := rfl

theorem UpdateWithFlavors_usage (c : ClusterQueue) (flavors : FlavorRegistry) :
    (UpdateWithFlavors c flavors).usage = c.usage := by
  simp [UpdateWithFlavors, apply_ite ClusterQueue.usage, updateLabelKeys]

theorem update_ok_usage (c : ClusterQueue) (spec : ClusterQueueSpec) (flavors : FlavorRegistry)
    (h : (update c spec flavors).2 = none) :
    (update c spec flavors).1.usage = pruneUsage spec.resourceGroups c.usage := by
  by_cases hv : spec.namespaceSelector.matchExpressions.all requirementValid = true
  · simp [update, labelSelectorAsSelector, hv, UpdateWithFlavors_usage,
          updateResourceGroups_usage]
  · exfalso
    simp [update, labelSelectorAsSelector, hv] at h

/-- C1: a successful quota reconfiguration carries the exact prior count of
every cell present both before and after, drops every cell the new
configuration does not declare, and initializes newly present cells at zero. -/
theorem update_usage_pruning (c : ClusterQueue) (spec : ClusterQueueSpec)
    (flavors : FlavorRegistry) (h : (update c spec flavors).2 = none) :
    (∀ f r v, lookupCell c.usage f r = some v →
        (lookupCell (update c spec flavors).1.usage f r).isSome →
        lookupCell (update c spec flavors).1.usage f r = some v) ∧
    (∀ f r, ¬ declaredIn spec.resourceGroups f r →
        lookupCell (update c spec flavors).1.usage f r = none) ∧
    (∀ f r, lookupCell c.usage f r = none →
        (lookupCell (update c spec flavors).1.usage f r).isSome →
        lookupCell (update c spec flavors).1.usage f r = some 0) := by
  have hu := update_ok_usage c spec flavors h
  refine ⟨?_, ?_, ?_⟩
  · intro f r v hv hs
    rcases ho : lookupCell (update c spec flavors).1.usage f r with _ | v'
    · rw [ho] at hs
      exact absurd hs (by simp)
    · have hchar := lookupCell_pruneUsage spec.resourceGroups c.usage f r v'
        (by rw [← hu]; exact ho)
      rw [hchar.1, hv]
      rfl
  · intro f r hnd
    rcases ho : lookupCell (update c spec flavors).1.usage f r with _ | v'
    · rfl
    · have hchar := lookupCell_pruneUsage spec.resourceGroups c.usage f r v'
        (by rw [← hu]; exact ho)
      exact absurd hchar.2 hnd
  · intro f r hv hs
    rcases ho : lookupCell (update c spec flavors).1.usage f r with _ | v'
    · rw [ho] at hs
      exact absurd hs (by simp)
    · have hchar := lookupCell_pruneUsage spec.resourceGroups c.usage f r v'
        (by rw [← hu]; exact ho)
      rw [hchar.1, hv]
      rfl

/-- C1 witness: reconfiguring a queue with usage F/cpu=3, F/mem=7, G/cpu=1 to
a spec declaring only F/cpu and F/gpu keeps F/cpu=3, drops F/mem, zeroes F/gpu. -/
theorem update_usage_pruning_check :
    lookupCell (update cEx1 specEx1 []).1.usage "F" "cpu" = some 3 ∧
    lookupCell (update cEx1 specEx1 []).1.usage "F" "mem" = none ∧
    lookupCell (update cEx1 specEx1 []).1.usage "F" "gpu" = some 0 :=
  ⟨(update_usage_pruning cEx1 specEx1 [] (by decide)).1 "F" "cpu" 3 (by decide) (by decide),
   (update_usage_pruning cEx1 specEx1 [] (by decide)).2.1 "F" "mem" (by decide),
   (update_usage_pruning cEx1 specEx1 [] (by decide)).2.2 "F" "gpu" (by decide) (by decide)⟩

/-! ## C4: behaviour on a malformed namespace selector -/

/-- C4 counterexample: with a malformed namespace selector, `update` returns a
configuration error, yet the queue is not left entirely in its previous state:
its resource groups have already been replaced according to the new spec. -/
theorem update_error_groups_replaced :
    ((update cEx4 specEx4 []).2).isSome = true ∧
    (update cEx4 specEx4 []).1.resourceGroups ≠ cEx4.resourceGroups := by decide

/-- C4 amended: on a malformed namespace-selector expression `update` returns a
configuration error; the usage ledger, namespace selector, preemption policy,
status, tracked workloads, not-ready set and tenant views keep their previous
values, but the resource groups and the resource-to-group index have already
been replaced according to the new spec when the error returns. -/
theorem update_malformed_selector_spec (c : ClusterQueue) (spec : ClusterQueueSpec)
    (flavors : FlavorRegistry)
    (h : spec.namespaceSelector.matchExpressions.all requirementValid = false) :
    ((update c spec flavors).2).isSome = true ∧
    (update c spec flavors).1.usage = c.usage ∧
    (update c spec flavors).1.namespaceSelector = c.namespaceSelector ∧
    (update c spec flavors).1.preemption = c.preemption ∧
    (update c spec flavors).1.status = c.status ∧
    (update c spec flavors).1.workloads = c.workloads ∧
    (update c spec flavors).1.workloadsNotReady = c.workloadsNotReady ∧
    (update c spec flavors).1.localQueues = c.localQueues ∧
    (update c spec flavors).1 = updateResourceGroups c spec.resourceGroups := by
  have hred : update c spec flavors =
      (updateResourceGroups c spec.resourceGroups, some "invalid label selector") := by
    simp [update, labelSelectorAsSelector, h]
  rw [hred]
  exact ⟨rfl, rfl, rfl, rfl, rfl, rfl, rfl, rfl, rfl⟩

/-- C4 witness: the amended theorem applied at a concrete queue and a spec
carrying a malformed selector expression. -/
theorem update_malformed_selector_spec_check :
    specEx4.namespaceSelector.matchExpressions.all requirementValid = false ∧
    (update cEx4 specEx4 []).1.usage = cEx4.usage :=
  ⟨by decide, (update_malformed_selector_spec cEx4 specEx4 [] (by decide)).2.1⟩

/-! ## C8: the borrowing predicate -/

/-- C8: a queue is borrowing iff it belongs to a cohort and some cell present
in its usage ledger strictly exceeds a nominal quota declared for that cell; a
queue with no cohort or an empty ledger is never borrowing, and usage equal to
nominal is not borrowing.  Assumes the spec's well-formedness condition that
declared nominal quotas are non-negative. -/
theorem IsBorrowing_iff_spec (c : ClusterQueue) (h : nominalsNonneg c.resourceGroups) :
    IsBorrowing c = true ↔
      (c.cohort.isSome = true ∧
        ∃ f r v q, lookupCell c.usage f r = some v ∧
          (∃ rg ∈ c.resourceGroups, ∃ fq ∈ rg.flavors, fq.name = f ∧ (r, q) ∈ fq.resources) ∧
          q.nominal < v) := by
  constructor
  · intro hb
    rw [IsBorrowing] at hb
    by_cases hg : (c.cohort.isNone || c.usage.isEmpty) = true
    · rw [if_pos hg] at hb
      exact absurd hb (by simp)
    · rw [if_neg hg] at hb
      have hcoh : c.cohort.isSome = true := by
        cases hc : c.cohort <;> simp_all
      refine ⟨hcoh, ?_⟩
      obtain ⟨rg, hrg, hfa⟩ := List.any_eq_true.mp hb
      obtain ⟨fq, hfq, hmatch⟩ := List.any_eq_true.mp hfa
      cases halu : alookup c.usage fq.name with
      | none =>
          rw [halu] at hmatch
          exact absurd hmatch (by simp)
      | some flvUsage =>
          rw [halu] at hmatch
          obtain ⟨rp, hrp, hlt⟩ := List.any_eq_true.mp hmatch
          have hlt2 : rp.2.nominal < (alookup flvUsage rp.1).getD 0 := of_decide_eq_true hlt
          cases hv : alookup flvUsage rp.1 with
          | none =>
              rw [hv] at hlt2
              have hge := h rg hrg fq hfq rp hrp
              simp at hlt2
              omega
          | some v =>
              rw [hv] at hlt2
              refine ⟨fq.name, rp.1, v, rp.2, ?_, ⟨rg, hrg, fq, hfq, rfl, hrp⟩, ?_⟩
              · rw [lookupCell_eq_bind, halu]
                simpa using hv
              · simpa using hlt2
  · rintro ⟨hcoh, f, r, v, q, hcell, ⟨rg, hrg, fq, hfq, hname, hmem⟩, hlt⟩
    rw [IsBorrowing]
    obtain ⟨flvUsage, halu, hvr⟩ :
        ∃ fl, alookup c.usage f = some fl ∧ alookup fl r = some v := by
      rw [lookupCell_eq_bind] at hcell
      cases halu : alookup c.usage f with
      | none =>
          rw [halu] at hcell
          exact absurd hcell (by simp)
      | some fl =>
          rw [halu] at hcell
          exact ⟨fl, rfl, by simpa using hcell⟩
    have hne : c.usage.isEmpty = false := by
      cases hu : c.usage
      · rw [hu] at halu
        exact absurd halu (by simp [alookup])
      · rfl
    have hguard : (c.cohort.isNone || c.usage.isEmpty) = false := by
      cases hc : c.cohort <;> simp_all
    rw [if_neg (by simp [hguard])]
    refine List.any_eq_true.mpr ⟨rg, hrg, List.any_eq_true.mpr ⟨fq, hfq, ?_⟩⟩
    rw [hname, halu]
    show fq.resources.any
      (fun rp => decide (rp.2.nominal < (alookup flvUsage rp.1).getD 0)) = true
    refine List.any_eq_true.mpr ⟨(r, q), hmem, ?_⟩
    simp only [hvr, Option.getD_some]
    exact decide_eq_true hlt

/-- C8 witness: the borrowing equivalence applied at a concrete queue in a
cohort with nominal 10 and usage 11 on cell F/R. -/
theorem IsBorrowing_iff_spec_check : IsBorrowing cEx8 = true :=
  (IsBorrowing_iff_spec cEx8 (by decide)).mpr
    ⟨by decide, "F", "R", 11, { nominal := 10, borrowingLimit := none }, by decide,
      ⟨rgEx8, by decide, fqEx8, by decide, by decide, by decide⟩, by decide⟩

/-! ## C7: tenant-queue registration backfill -/

theorem alookup_eq_none_iff {β : Type} (l : List (String × β)) (key : String) :
    alookup l key = none ↔ ∀ p ∈ l, p.1 ≠ key := by
  induction l with
  | nil => simp [alookup]
  | cons p t ih =>
      simp only [alookup, List.mem_cons]
      by_cases h : p.1 = key <;> simp [h, ih]

theorem alookup_eq_some_mem {β : Type} (l : List (String × β)) (key : String) (v : β)
    (h : alookup l key = some v) : (key, v) ∈ l := by
  induction l with
  | nil => simp [alookup] at h
  | cons p t ih =>
      obtain ⟨a, b⟩ := p
      simp only [alookup] at h
      by_cases hp : a = key
      · rw [if_pos hp] at h
        simp only [Option.some.injEq] at h
        subst hp
        subst h
        exact List.mem_cons_self _ _
      · rw [if_neg hp] at h
        exact List.mem_cons_of_mem _ (ih h)

theorem alookup_keyfold_not_mem {β : Type} (l : List (String × β)) (g : String × β → β)
    (acc : List (String × β)) (f : String) (hf : ∀ p ∈ l, p.1 ≠ f) :
    alookup (l.foldl (fun a p => ainsert a p.1 (g p)) acc) f = alookup acc f := by
  induction l generalizing acc with
  | nil => rfl
  | cons p t ih =>
      simp only [List.foldl_cons]
      rw [ih _ (fun q hq => hf q (List.mem_cons_of_mem _ hq)), alookup_ainsert,
          if_neg (fun hh => hf p (List.mem_cons_self p t) hh.symm)]

theorem alookup_keyfold_mem {β : Type} (l : List (String × β)) (g : String × β → β)
    (f : String) :
    ∀ (acc : List (String × β)) (p0 : String × β), p0 ∈ l →
      (l.map Prod.fst).Nodup → p0.1 = f →
      alookup (l.foldl (fun a p => ainsert a p.1 (g p)) acc) f = some (g p0) := by
  induction l with
  | nil =>
      intro acc p0 hmem
      cases hmem
  | cons p t ih =>
      intro acc p0 hmem hno hf
      simp only [List.foldl_cons]
      rcases List.mem_cons.mp hmem with rfl | hmem2
      · have hnotin : ∀ q ∈ t, q.1 ≠ f := by
          intro q hq hq1
          have hmemq : q.1 ∈ t.map Prod.fst := List.mem_map_of_mem Prod.fst hq
          rw [hq1, ← hf] at hmemq
          exact (List.nodup_cons.mp hno).1 hmemq
        rw [alookup_keyfold_not_mem t g _ f hnotin, alookup_ainsert, if_pos hf.symm]
      · exact ih _ p0 hmem2 (List.nodup_cons.mp hno).2 hf

theorem alookup_constfold (ru : List (ResourceName × Int)) (v : Int) (init : ResourceUsage)
    (r : ResourceName) :
    alookup (ru.foldl (fun ur rp => ainsert ur rp.1 v) init) r =
      if (alookup ru r).isSome then some v else alookup init r := by
  induction ru generalizing init with
  | nil => simp [alookup]
  | cons rp t ih =>
      simp only [List.foldl_cons, ih, alookup_ainsert, alookup]
      by_cases hr : rp.1 = r
      · simp [hr]
      · simp [hr, Ne.symm hr]

theorem lookupCell_reset (q0 : queue) (cq : FlavorResourceQuantities)
    (hno : ledgerKeysNodup cq) (hq : q0.usage = []) (f : FlavorRef) (r : ResourceName) :
    lookupCell (resetFlavorsAndResources q0 cq).usage f r =
      (lookupCell cq f r).map (fun _ => (0 : Int)) := by
  have husage : (resetFlavorsAndResources q0 cq).usage =
      cq.foldl (fun acc p => ainsert acc p.1 (p.2.foldl (fun ur rp =>
        ainsert ur rp.1 (((alookup q0.usage p.1).bind (fun m => alookup m rp.1)).getD 0)) []))
        [] := rfl
  cases hcf : alookup cq f with
  | none =>
      have h1 := alookup_keyfold_not_mem cq
        (fun p => p.2.foldl (fun ur rp =>
          ainsert ur rp.1 (((alookup q0.usage p.1).bind (fun m => alookup m rp.1)).getD 0)) [])
        [] f ((alookup_eq_none_iff cq f).mp hcf)
      rw [husage, lookupCell_eq_bind, h1, lookupCell_eq_bind, hcf]
      rfl
  | some ru =>
      have hmem := alookup_eq_some_mem cq f ru hcf
      have h1 := alookup_keyfold_mem cq
        (fun p => p.2.foldl (fun ur rp =>
          ainsert ur rp.1 (((alookup q0.usage p.1).bind (fun m => alookup m rp.1)).getD 0)) [])
        f [] (f, ru) hmem hno rfl
      rw [husage, lookupCell_eq_bind, h1, lookupCell_eq_bind, hcf]
      simp only [Option.some_bind, hq, alookup, Option.none_bind, Option.getD_none]
      rw [alookup_constfold]
      cases hvr : alookup ru r <;> simp [hvr, alookup]

theorem backfill_count_loop (ws : List (String × WorkloadInfo)) (q : LocalQueue) (acc : queue) :
    (ws.foldl (backfillStep q) acc).admittedWorkloads =
      acc.admittedWorkloads +
        ((ws.filter (fun p => workloadBelongsToLocalQueue p.2.obj q)).length : Int) := by
  induction ws generalizing acc with
  | nil => simp
  | cons p t ih =>
      simp only [List.foldl_cons, List.filter_cons]
      by_cases hb : workloadBelongsToLocalQueue p.2.obj q = true
      · simp only [backfillStep, if_pos hb, hb, ih]
        push_cast [List.length_cons]
        ring
      · simp only [backfillStep, if_neg hb, hb, ih]
        rfl

theorem backfill_usage_loop (ws : List (String × WorkloadInfo)) (q : LocalQueue) (acc : queue)
    (f : FlavorRef) (r : ResourceName) :
    lookupCell (ws.foldl (backfillStep q) acc).usage f r =
      (lookupCell acc.usage f r).map (fun v => v +
        ((ws.filter (fun p => workloadBelongsToLocalQueue p.2.obj q)).map
          (fun p => wlCellTotal p.2 f r)).sum) := by
  induction ws generalizing acc with
  | nil => cases h : lookupCell acc.usage f r <;> simp [h]
  | cons p t ih =>
      simp only [List.foldl_cons, List.filter_cons]
      by_cases hb : workloadBelongsToLocalQueue p.2.obj q = true
      · simp only [backfillStep, if_pos hb, hb, ih]
        show (lookupCell (updateUsage p.2 acc.usage 1) f r).map _ = _
        rw [lookupCell_updateUsage]
        cases h : lookupCell acc.usage f r <;> simp [h, List.map_cons, List.sum_cons] <;> ring
      · simp only [backfillStep, if_neg hb, hb, ih]
        rfl

/-- C7: registering a fresh tenant queue succeeds and yields a TenantView
whose admitted count is the number of tracked workloads belonging to the
tenant, and whose ledger, over exactly the cells of the queue's current
ledger, holds the sum of those workloads' per-cell commitments. -/
theorem addLocalQueue_backfill_spec (c : ClusterQueue) (q : LocalQueue)
    (hfresh : alookup c.localQueues (queueKey q) = none)
    (hno : ledgerKeysNodup c.usage) :
    (addLocalQueue c q).2 = none ∧
    ∃ qImpl, alookup (addLocalQueue c q).1.localQueues (queueKey q) = some qImpl ∧
      qImpl.admittedWorkloads =
        ((c.workloads.filter (fun p => workloadBelongsToLocalQueue p.2.obj q)).length : Int) ∧
      (∀ f r, lookupCell c.usage f r = none → lookupCell qImpl.usage f r = none) ∧
      (∀ f r v, lookupCell c.usage f r = some v →
          lookupCell qImpl.usage f r =
            some (((c.workloads.filter (fun p => workloadBelongsToLocalQueue p.2.obj q)).map
              (fun p => wlCellTotal p.2 f r)).sum)) := by
  have hred : (addLocalQueue c q) =
      ({ c with localQueues := ainsert c.localQueues (queueKey q) (c.workloads.foldl (backfillStep q) (resetFlavorsAndResources { key := queueKey q, admittedWorkloads := 0, usage := [] } c.usage)) }, none) := by
    simp [addLocalQueue, hfresh]
  rw [hred]
  refine ⟨rfl, c.workloads.foldl (backfillStep q)
      (resetFlavorsAndResources { key := queueKey q, admittedWorkloads := 0, usage := [] } c.usage),
      ?_, ?_, ?_, ?_⟩
  · show alookup (ainsert c.localQueues (queueKey q) _) (queueKey q) = some _
    rw [alookup_ainsert, if_pos rfl]
  · rw [backfill_count_loop]
    exact zero_add _
  · intro f r hv
    rw [backfill_usage_loop, lookupCell_reset _ _ hno rfl, hv]
    rfl
  · intro f r v hv
    rw [backfill_usage_loop, lookupCell_reset _ _ hno rfl, hv]
    simp

/-- C7 witness: a queue with three admitted workloads, two of which belong to
the tenant, yields an admitted count of 2 and a backfilled ledger of 2+3=5. -/
theorem addLocalQueue_backfill_spec_check :
    ∃ qImpl, alookup (addLocalQueue cW7 qW7).1.localQueues (queueKey qW7) = some qImpl ∧
      qImpl.admittedWorkloads = 2 ∧ lookupCell qImpl.usage "F" "cpu" = some 5 := by
  obtain ⟨-, qImpl, hq, hcount, -, hsum⟩ :=
    addLocalQueue_backfill_spec cW7 qW7 (by decide) (by decide)
  refine ⟨qImpl, hq, ?_, ?_⟩
  · rw [hcount]
    decide
  · rw [hsum "F" "cpu" 0 (by decide)]
    decide

/-! ## C10: shape agreement between queue ledger and TenantView ledgers -/

theorem lookupCell_updateUsage_isSome (wi : WorkloadInfo) (u : FlavorResourceQuantities)
    (m : Int) (f : FlavorRef) (r : ResourceName) :
    (lookupCell (updateUsage wi u m) f r).isSome = (lookupCell u f r).isSome := by
  rw [lookupCell_updateUsage]
  cases lookupCell u f r <;> rfl

theorem addWorkload_ok_localQueues (c : ClusterQueue) (w : Workload)
    (h : alookup c.workloads (workloadKey w) = none) (k : String) :
    alookup (addWorkload c w).1.localQueues k =
      (alookup c.localQueues k).map (fun lq =>
        if k = queueKeyForWorkload w then
          { lq with usage := updateUsage (newInfo w) lq.usage 1
                    admittedWorkloads := lq.admittedWorkloads + 1 }
        else lq) := by
  have h1 : (addWorkload c w).1.localQueues =
      (updateWorkloadUsage { c with workloads := ainsert c.workloads (workloadKey w) (newInfo w) }
        (newInfo w) 1).localQueues := by
    simp [addWorkload, h, apply_ite ClusterQueue.localQueues]
  rw [h1, alookup_localQueues_updateWorkloadUsage]
  rfl

theorem deleteWorkload_tracked_localQueues (c : ClusterQueue) (w : Workload) (wi : WorkloadInfo)
    (h : alookup c.workloads (workloadKey w) = some wi) (k : String) :
    alookup (deleteWorkload c w).localQueues k =
      (alookup c.localQueues k).map (fun lq =>
        if k = queueKeyForWorkload wi.obj then
          { lq with usage := updateUsage wi lq.usage (-1)
                    admittedWorkloads := lq.admittedWorkloads + (-1) }
        else lq) := by
  have h1 : (deleteWorkload c w).localQueues = (updateWorkloadUsage c wi (-1)).localQueues := by
    simp [deleteWorkload, h, apply_ite ClusterQueue.localQueues]
  rw [h1, alookup_localQueues_updateWorkloadUsage]

/-- C10 counterexample: after a successful quota reconfiguration replacing
flavor F resource cpu by flavor G resource mem, the queue ledger holds exactly
the cell G/mem while the registered TenantView still carries the stale cell
F/cpu and lacks G/mem, so the two ledgers do not have the same cells. -/
theorem tenantView_shape_broken_by_update :
    (update cEx10 specEx10 []).2 = none ∧
    lookupCell (update cEx10 specEx10 []).1.usage "G" "mem" = some 0 ∧
    lookupCell (update cEx10 specEx10 []).1.usage "F" "cpu" = none ∧
    alookup (update cEx10 specEx10 []).1.localQueues "ns/tq" = some lqEx10 ∧
    lookupCell lqEx10.usage "F" "cpu" = some 0 ∧
    lookupCell lqEx10.usage "G" "mem" = none := by decide

/-- C10 amended: a freshly registered TenantView ledger has exactly the cells
of the queue ledger, and workload admission and removal preserve the cell sets
of both the queue ledger and every registered TenantView ledger; a quota-spec
replacement, however, leaves TenantView ledgers untouched, so the shape
equality is not maintained across `update`. -/
theorem tenantView_shape_spec (c : ClusterQueue) (q : LocalQueue) (w : Workload)
    (f : FlavorRef) (r : ResourceName) :
    (alookup c.localQueues (queueKey q) = none → ledgerKeysNodup c.usage →
      ∀ qImpl, alookup (addLocalQueue c q).1.localQueues (queueKey q) = some qImpl →
        (lookupCell qImpl.usage f r).isSome = (lookupCell c.usage f r).isSome) ∧
    ((lookupCell (addWorkload c w).1.usage f r).isSome = (lookupCell c.usage f r).isSome ∧
      (∀ k lq, alookup c.localQueues k = some lq →
        ∃ lq', alookup (addWorkload c w).1.localQueues k = some lq' ∧
          (lookupCell lq'.usage f r).isSome = (lookupCell lq.usage f r).isSome)) ∧
    ((lookupCell (deleteWorkload c w).usage f r).isSome = (lookupCell c.usage f r).isSome ∧
      (∀ k lq, alookup c.localQueues k = some lq →
        ∃ lq', alookup (deleteWorkload c w).localQueues k = some lq' ∧
          (lookupCell lq'.usage f r).isSome = (lookupCell lq.usage f r).isSome)) := by
  refine ⟨?_, ⟨?_, ?_⟩, ⟨?_, ?_⟩⟩
  · intro hfresh hno qImpl hqi
    have hred : (addLocalQueue c q).1.localQueues =
        ainsert c.localQueues (queueKey q) (c.workloads.foldl (backfillStep q) (resetFlavorsAndResources { key := queueKey q, admittedWorkloads := 0, usage := [] } c.usage)) := by
      simp [addLocalQueue, hfresh]
    rw [hred, alookup_ainsert, if_pos rfl] at hqi
    injection hqi with hqi2
    rw [← hqi2, backfill_usage_loop, lookupCell_reset _ _ hno rfl]
    cases lookupCell c.usage f r <;> rfl
  · cases hw : alookup c.workloads (workloadKey w) with
    | some wi0 => rw [addWorkload_dup c w wi0 hw]
    | none =>
        rw [addWorkload_ok_usage c w hw]
        exact lookupCell_updateUsage_isSome (newInfo w) c.usage 1 f r
  · intro k lq hlq
    cases hw : alookup c.workloads (workloadKey w) with
    | some wi0 =>
        rw [addWorkload_dup c w wi0 hw]
        exact ⟨lq, hlq, rfl⟩
    | none =>
        rw [addWorkload_ok_localQueues c w hw k, hlq]
        refine ⟨_, rfl, ?_⟩
        by_cases hk : k = queueKeyForWorkload w
        · simp only [if_pos hk]
          show (lookupCell (updateUsage (newInfo w) lq.usage 1) f r).isSome = _
          exact lookupCell_updateUsage_isSome (newInfo w) lq.usage 1 f r
        · simp only [if_neg hk]
  · cases hw : alookup c.workloads (workloadKey w) with
    | none => rw [deleteWorkload_untracked c w hw]
    | some wi =>
        rw [deleteWorkload_tracked_usage c w wi hw]
        exact lookupCell_updateUsage_isSome wi c.usage (-1) f r
  · intro k lq hlq
    cases hw : alookup c.workloads (workloadKey w) with
    | none =>
        rw [deleteWorkload_untracked c w hw]
        exact ⟨lq, hlq, rfl⟩
    | some wi =>
        rw [deleteWorkload_tracked_localQueues c w wi hw k, hlq]
        refine ⟨_, rfl, ?_⟩
        by_cases hk : k = queueKeyForWorkload wi.obj
        · simp only [if_pos hk]
          show (lookupCell (updateUsage wi lq.usage (-1)) f r).isSome = _
          exact lookupCell_updateUsage_isSome wi lq.usage (-1) f r
        · simp only [if_neg hk]

/-- C10 witness: the amended theorem's registration part applied at a concrete
queue, yielding a TenantView ledger with the same cell F/cpu as the queue. -/
theorem tenantView_shape_spec_check :
    (lookupCell qImplW10.usage "F" "cpu").isSome = (lookupCell cW10.usage "F" "cpu").isSome :=
  (tenantView_shape_spec cW10 qW10 wEx10c "F" "cpu").1 (by decide) (by decide)
    qImplW10 (by decide)
